import Mathlib

/-!
Verification of the pdf-img task orchestrator (Go sources under
internal/service/task_service.go, internal/model/task.go,
internal/translator/provider.go) as a shallow embedding in Lean.

Modelling conventions:
* Go strings are Lean `String`s; where Go ranges over runes we fold over
  `String.data` (the rune list).  Byte lengths use `Char.utf8Size`.
* `time.Time` values are modelled as their rendered RFC3339 strings, since
  the claims only compare persisted bytes and stamped values.
* Go `int` is `Int` (pages, settings, token budgets); counters that the code
  only ever sets from lengths are `Nat`.
* The task store (one meta.json per task id) is a function from task id to
  the stored task; byte-level persistence for the round-trip claim uses a
  separate function from task id to the stored serialized bytes.
* Concurrency is modelled by explicit interleavings: worker-pool translation
  is a sequential fold over the scheduled pages (one interleaving of the
  pool), and the formatting pipeline's per-chunk retry loop is a recursion
  over the list of successive provider outcomes for that chunk.
* `strings.ToLower` / `strings.TrimSpace` are modelled character-wise
  (`goToLower` / `goTrimSpace`), which agrees with Go on the ASCII inputs
  the code compares against.
-/

namespace PdfTool

/-- Go strings.ToLower, modelled rune-wise. -/
def goToLower (s : String) : String := String.mk (s.data.map Char.toLower)

/-- Go strings.TrimSpace, modelled rune-wise: drop leading and trailing
whitespace runes. -/
def goTrimSpace (s : String) : String :=
  String.mk (((s.data.dropWhile Char.isWhitespace).reverse.dropWhile Char.isWhitespace).reverse)

/-- Go strings.Contains: sub is a contiguous substring of s.  For the ASCII
patterns the code uses, byte-level and rune-level containment agree. -/
def strContains (s sub : String) : Bool := decide (sub.data <:+: s.data)

/-- model/task.go: PageStatus enumerates translation states for pages. -/
inductive PageStatus where
  | pending
  | completed
  | error
deriving DecidableEq, Repr

/-- The JSON string value of a PageStatus ("pending" / "completed" / "error"). -/
def PageStatus.str : PageStatus → String
  | .pending => "pending"
  | .completed => "completed"
  | .error => "error"

/-- model/task.go: PageResult tracks outputs for a rendered PDF page.
Field order matches the Go struct. -/
structure PageResult where
  id : String
  pageNumber : Int
  imagePath : String
  imageURL : String
  textPath : String
  textURL : String
  hasText : Bool
  sourceText : String
  translation : String
  status : PageStatus
  error : String
  updatedAt : String
deriving DecidableEq, Repr

/-- model/task.go: ProviderInfo keeps non-sensitive provider data. -/
structure ProviderInfo where
  type : String
  baseURL : String
  model : String
  maxTokens : Int
deriving DecidableEq, Repr

/-- model/task.go: Task aggregates all processing artifacts for a PDF.
Field order matches the Go struct. -/
structure Task where
  id : String
  fileName : String
  originalPath : String
  totalPages : Int
  pages : List PageResult
  combinedTxtPath : String
  combinedTxtURL : String
  combinedPDFPath : String
  combinedPDFURL : String
  createdAt : String
  updatedAt : String
  provider : ProviderInfo
  formattingOptimized : Bool
  formattedByAI : Bool
  formattedTxtPath : String
  formattedTxtURL : String
  formattedPDFPath : String
  formattedPDFURL : String
  formattingInProgress : Bool
  formattingTotalChunks : Nat
  formattingCompletedChunks : Nat
deriving DecidableEq, Repr

/-- service/task_service.go: TranslationSettings controls initial translation
behavior. -/
structure TranslationSettings where
  rangeMode : String
  rangeCustom : Int
  rangeStart : Int
  rangeEnd : Int
  batchLimit : Int
deriving DecidableEq, Repr

/-- translator/provider.go: ProviderType enumerates supported AI providers. -/
inductive ProviderType where
  | openai
  | gemini
  | anthropic
deriving DecidableEq, Repr

/-- translator/provider.go: SanitizeMaxTokens ensures a reasonable default. -/
def SanitizeMaxTokens (val : Int) : Int := if val ≤ 0 then 8192 else val

/-- The task store: one persisted Task (meta.json) per task id. -/
abbrev Store := String → Option Task

/-- service/task_service.go saveTask/saveTaskLocked: stamp updatedAt with the
current time and atomically replace the stored aggregate for task.id. -/
def saveTask (store : Store) (task : Task) (now : String) : Store :=
  fun i => if i = task.id then some ({ task with updatedAt := now }) else store i

/-- service/task_service.go loadTask: read the stored aggregate for an id. -/
def loadTask (store : Store) (taskID : String) : Option Task := store taskID

/-- The replace-by-id-or-append loop of persistPageUpdate: replace the first
page whose id matches, or append the page when no id matches. -/
def mergePageById : List PageResult → PageResult → List PageResult
  | [], page => [page]
  | existing :: rest, page =>
      if existing.id = page.id then page :: rest
      else existing :: mergePageById rest page

/-- service/task_service.go persistPageUpdate: with merge=false save the
in-memory task as-is; with merge=true reload the current task from the
store, merge the page by id, and save the merged task.  Returns none when
the reload fails (task id absent from the store). -/
def persistPageUpdate (store : Store) (task : Task) (page : PageResult)
    (merge : Bool) (now : String) : Option Store :=
  if merge = false then some (saveTask store task now)
  else
    match loadTask store task.id with
    | none => none
    | some current =>
        some (saveTask store ({ current with pages := mergePageById current.pages page }) now)

/-- Inclusive integer range [lo, hi], the page numbers visited by Go's
`for i := lo; i <= hi; i++` loops. -/
def intRange (lo hi : Int) : List Int :=
  (List.range (hi + 1 - lo).toNat).map (fun k => lo + Int.ofNat k)

/-- The switch statement of determineInitialPageSet: the page numbers the
"custom" / "range" / default cases insert into the selection map. -/
def initialRangeResult (total : Int) (settings : TranslationSettings) : List Int :=
  let mode := goToLower (goTrimSpace settings.rangeMode)
  if mode = "custom" then
    let limit := settings.rangeCustom
    if limit ≤ 0 then []
    else
      let limit := if limit > total then total else limit
      intRange 1 limit
  else if mode = "range" then
    let start := settings.rangeStart
    let stop := settings.rangeEnd
    if start ≤ 0 ∧ stop ≤ 0 then []
    else
      let start := if start ≤ 0 then 1 else start
      let stop := if stop ≤ 0 then total else stop
      let p := if start > stop then (stop, start) else (start, stop)
      let start := if p.1 > total then total else p.1
      let stop := if p.2 > total then total else p.2
      intRange start stop
  else []

/-- service/task_service.go determineInitialPageSet: which page numbers are
selected for initial translation.  The Go map of selected page numbers is
modelled as the list of numbers inserted, in loop order (the map is only
consulted for membership and emptiness); when the switch selected nothing,
every page 1..total is selected. -/
def determineInitialPageSet (total : Int) (settings : TranslationSettings) : List Int :=
  let result := initialRangeResult total settings
  if result.isEmpty then intRange 1 total else result

/-- Inputs CreateTask receives from its external collaborators: fresh page
ids (uuid.NewString per page) and the rasterizer's per-page image paths. -/
structure CreateEnv where
  newID : Int → String
  imgPath : Int → String
  txtPath : Int → String
  imgURL : Int → String

/-- service/task_service.go CreateTask, page population: pages are created
pending (status pending, empty text fields, timestamp now), then every page
not selected by determineInitialPageSet is immediately marked completed with
empty text, empty error, timestamp now2. -/
def createTaskPages (env : CreateEnv) (total : Int) (settings : TranslationSettings)
    (now now2 : String) : List PageResult :=
  let selected := determineInitialPageSet total settings
  (intRange 1 total).map fun n =>
    let page : PageResult :=
      { id := env.newID n, pageNumber := n, imagePath := env.imgPath n,
        imageURL := env.imgURL n, textPath := env.txtPath n, textURL := "",
        hasText := false, sourceText := "", translation := "",
        status := .pending, error := "", updatedAt := now }
    if selected.contains n then page
    else
      { page with status := .completed, hasText := false, sourceText := "",
                  translation := "", error := "", updatedAt := now2 }

/-- Result of a successful Translate provider call. -/
structure TransResult where
  hasText : Bool
  sourceText : String
  translatedText : String
deriving DecidableEq, Repr

/-- Outcome of one Translate provider call (external collaborator). -/
inductive TransOutcome where
  | ok (res : TransResult)
  | fail (e : String)
deriving DecidableEq, Repr

/-- External collaborators of translateSinglePage: the translator client
(an oracle keyed by page number) and the filesystem write of the page's
text artifact (none = success, some e = os.WriteFile error text). -/
structure TransEnv where
  oracle : Int → TransOutcome
  writeErr : Option String
  textURLOf : Int → String

/-- Replace the page with matching id inside the in-memory task: Go mutates
the PageResult in place through the pointer held in task.Pages. -/
def setPage (task : Task) (page : PageResult) : Task :=
  { task with pages := task.pages.map (fun p => if p.id = page.id then page else p) }

/-- service/task_service.go translateSinglePage: invoke Translate for the
page; on failure set status error and the error string and save the task;
on success set the text fields (trimmed), write or remove the standalone
text artifact, set status completed and persist via persistPageUpdate with
the given merge flag.  Returns the store after the save (none when a merge
reload failed), the in-memory task and the updated page. -/
def translateSinglePage (env : TransEnv) (store : Store) (task : Task)
    (page : PageResult) (merge : Bool) (now : String) :
    Option Store × Task × PageResult :=
  match env.oracle page.pageNumber with
  | .fail e =>
      let page := { page with status := .error, error := e, updatedAt := now }
      let task := setPage task page
      (some (saveTask store task now), task, page)
  | .ok res =>
      let page :=
        { page with hasText := res.hasText,
                    sourceText := goTrimSpace res.sourceText,
                    translation := goTrimSpace res.translatedText,
                    error := "" }
      if page.hasText = true ∧ page.translation ≠ "" then
        match env.writeErr with
        | some werr =>
            let page :=
              { page with status := .error, error := "写入TXT失败: " ++ werr,
                          updatedAt := now }
            let task := setPage task page
            (some (saveTask store task now), task, page)
        | none =>
            let page :=
              { page with textURL := env.textURLOf page.pageNumber,
                          status := .completed, updatedAt := now }
            let task := setPage task page
            (persistPageUpdate store task page merge now, task, page)
      else
        let page := { page with textURL := "", status := .completed, updatedAt := now }
        let task := setPage task page
        (persistPageUpdate store task page merge now, task, page)

/-- One pool worker handling one scheduled page (the body of the worker
goroutine loop in translateTaskPages): run translateSinglePage with
mergeOnSave = false against the shared in-memory task. -/
def poolStep (env : TransEnv) (now : String) (acc : Option Store × Task)
    (p : PageResult) : Option Store × Task :=
  match acc with
  | (some st, tk) =>
      let r := translateSinglePage env st tk p false now
      (r.1, r.2.1)
  | (none, tk) => (none, tk)

/-- service/task_service.go translateTaskPages: the background worker pool.
Each worker runs translateSinglePage with mergeOnSave = false.  The pool is
modelled as one interleaving: the scheduled pages are processed in sequence
against the shared in-memory task (the worker-count bookkeeping only bounds
parallelism and does not change which saves happen). -/
def translateTaskPages (env : TransEnv) (store : Store) (task : Task)
    (pages : List PageResult) (now : String) : Option Store × Task :=
  if pages.isEmpty then (some store, task)
  else pages.foldl (poolStep env now) (some store, task)

/-- service/task_service.go updateFormattingState: load the task under the
store mutex, apply the mutation, save it back. -/
def updateFormattingState (store : Store) (taskID : String)
    (mutate : Task → Task) (now : String) : Option Store :=
  match loadTask store taskID with
  | none => none
  | some t => some (saveTask store (mutate t) now)

/-- FormatTaskLayout, initial progress write (lines 465-471): mark the run
in progress with the chunk count and zero completed chunks.  FormattedByAI
is left unchanged. -/
def startFormattingUpdate (totalChunks : Nat) (t : Task) : Task :=
  { t with formattingInProgress := true,
           formattingTotalChunks := totalChunks,
           formattingCompletedChunks := 0 }

/-- FormatTaskLayout, per-chunk-success progress write (lines 569-575). -/
def chunkProgressUpdate (totalChunks completed : Nat) (t : Task) : Task :=
  { t with formattingInProgress := true,
           formattingTotalChunks :=
             if t.formattingTotalChunks = 0 then totalChunks else t.formattingTotalChunks,
           formattingCompletedChunks := completed }

/-- FormatTaskLayout, deferred finalizer on a failed run (lines 517-531):
clear the in-progress flag and keep the completed-chunk count reached
before cancellation. -/
def failureFinalizeUpdate (totalChunks progress : Nat) (t : Task) : Task :=
  { t with formattingInProgress := false,
           formattingTotalChunks :=
             if t.formattingTotalChunks = 0 then totalChunks else t.formattingTotalChunks,
           formattingCompletedChunks := progress }

/-- FormatTaskLayout, success path (lines 603-608): mark the task formatted
by AI with final counts and clear the in-progress flag. -/
def successFinalizeUpdate (totalChunks : Nat) (fPath fURL : String) (t : Task) : Task :=
  { t with formattedByAI := true,
           formattedTxtPath := fPath,
           formattedTxtURL := fURL,
           formattingInProgress := false,
           formattingTotalChunks := totalChunks,
           formattingCompletedChunks := totalChunks }

/-- service/task_service.go formatterIsRateLimit: heuristic rate-limit
classification by error text. -/
def formatterIsRateLimit (msg : String) : Bool :=
  let m := goToLower msg
  strContains m "429" || strContains m "503" || strContains m "rate limit" ||
    strContains m "concurrency" || strContains m "provider_error"

/-- Outcome of one formatter.Format call for a chunk. -/
inductive FormatOutcome where
  | ok (result : String)
  | err (msg : String)
deriving DecidableEq, Repr

/-- How a chunk worker leaves its retry loop. -/
inductive ChunkDisposition where
  | completed (clean : String)
  | failed (msg : String)
  | pendingMore
deriving DecidableEq, Repr

/-- What one chunk worker did: final disposition, the backoff sleeps (in
whole seconds, in order) and the final shared concurrency cap. -/
structure ChunkRunResult where
  disposition : ChunkDisposition
  sleeps : List Nat
  cap : Nat
deriving DecidableEq, Repr

/-- The truncation error text of processChunk (line 564). -/
def truncMsg (idx1 : Nat) : String :=
  "AI 排版 chunk " ++ toString idx1 ++ " 返回内容过短，可能被截断"

/-- FormatTaskLayout processChunk retry loop (lines 533-581), for one chunk:
`outcomes` lists the successive results of formatter.Format for this chunk;
`cap` is the shared adaptive concurrency cap (currentLimit) observed by the
worker; `retries` starts at 0.  On a rate-limit-classified error with fewer
than 3 retries so far, the cap is lowered to 1 if above 1, the retry counter
increments and the worker sleeps retries seconds before the next attempt.
Any other error sets the run's first error.  On a successful call the
result is trimmed and the shrinkage check fails the run when the trimmed
output has fewer runes than half the chunk's rune count. -/
def runChunk (idx1 : Nat) (chunkData : String) (cap : Nat) (retries : Nat) :
    List FormatOutcome → ChunkRunResult
  | [] => ⟨.pendingMore, [], cap⟩
  | o :: rest =>
      match o with
      | .err m =>
          if formatterIsRateLimit m = true ∧ retries < 3 then
            let cap := if cap > 1 then 1 else cap
            let r := runChunk idx1 chunkData cap (retries + 1) rest
            ⟨r.disposition, (retries + 1) :: r.sleeps, r.cap⟩
          else ⟨.failed m, [], cap⟩
      | .ok result =>
          let clean := goTrimSpace result
          let srcLen := chunkData.data.length
          if 0 < srcLen ∧ clean.data.length < srcLen / 2 then
            ⟨.failed (truncMsg idx1), [], cap⟩
          else ⟨.completed clean, [], cap⟩

/-- service/task_service.go constants: 60KB chunk upper bound, 12KB floor. -/
def formatterChunkSize : Nat := 60 * 1024

/-- Minimum formatter chunk size (12KB). -/
def minFormatterChunk : Nat := 12 * 1024

/-- service/task_service.go estimateFormatterChunkSize: derive the per-chunk
byte budget from the provider's token budget.  Go computes
`int(float64(maxTokens) * 4 * 0.4)`; for every positive token budget
representable in the code's range this float computation truncates to
⌊8·maxTokens/5⌋, which is how it is rendered here. -/
def estimateFormatterChunkSize (provider : ProviderType) (maxTokens : Int) : Int :=
  let size : Int := (formatterChunkSize : Int)
  let size :=
    if maxTokens > 0 then
      let estimated : Int := 8 * maxTokens / 5
      let estimated := if estimated < (minFormatterChunk : Int) then (minFormatterChunk : Int) else estimated
      let estimated := if estimated > (formatterChunkSize : Int) then (formatterChunkSize : Int) else estimated
      if estimated < size then estimated else size
    else size
  let size :=
    if provider = ProviderType.openai then
      if size > (minFormatterChunk : Int) * 2 then size / 2 else (minFormatterChunk : Int)
    else size
  if size < (minFormatterChunk : Int) then (minFormatterChunk : Int) else size

/-- One iteration of splitTextChunks' rune loop (lines 990-1005), acting on
(chunks so far, current builder, current byte count).  The builder is the
rune list written so far (Go's strings.Builder; Len() > 0 iff nonempty). -/
def splitStep (maxBytes : Int) (st : List (List Char) × List Char × Int)
    (r : Char) : List (List Char) × List Char × Int :=
  let chunks := st.1
  let builder := st.2.1
  let current := st.2.2
  let bufLen : Int := (Char.utf8Size r : Int)
  let st1 :=
    if current + bufLen > maxBytes ∧ builder ≠ [] then
      (chunks ++ [builder], ([] : List Char), (0 : Int))
    else (chunks, builder, current)
  let chunks := st1.1
  let builder := st1.2.1 ++ [r]
  let current := st1.2.2 + bufLen
  if r = '\n' ∧ current > maxBytes - 512 then
    (chunks ++ [builder], ([] : List Char), (0 : Int))
  else (chunks, builder, current)

/-- service/task_service.go splitTextChunks: split text into chunks of at
most maxBytes bytes, preferring newline cuts within 512 bytes of the
budget; non-positive budgets fall back to formatterChunkSize. -/
def splitTextChunks (text : String) (maxBytes : Int) : List String :=
  let maxBytes := if maxBytes ≤ 0 then (formatterChunkSize : Int) else maxBytes
  let st := text.data.foldl (splitStep maxBytes) ([], [], 0)
  let chunks := if st.2.1 ≠ [] then st.1 ++ [st.2.1] else st.1
  chunks.map String.mk

/-- Lowercase hex digit, as used by encoding/json \u00xx escapes. -/
def hexDigit (n : Nat) : Char :=
  if n < 10 then Char.ofNat (48 + n) else Char.ofNat (87 + n)

/-- encoding/json string escaping (HTML escaping on, as used by
json.MarshalIndent): quote, backslash, control characters and the HTML
characters are escaped; everything else is emitted verbatim. -/
def escapeChar (c : Char) : List Char :=
  if c = '"' then ['\\', '"']
  else if c = '\\' then ['\\', '\\']
  else if c = '\n' then ['\\', 'n']
  else if c = '\r' then ['\\', 'r']
  else if c = '\t' then ['\\', 't']
  else if c.toNat < 32 then
    ['\\', 'u', '0', '0', hexDigit (c.toNat / 16), hexDigit (c.toNat % 16)]
  else if c = '<' then ['\\', 'u', '0', '0', '3', 'c']
  else if c = '>' then ['\\', 'u', '0', '0', '3', 'e']
  else if c = '&' then ['\\', 'u', '0', '0', '2', '6']
  else if c.toNat = 8232 then ['\\', 'u', '2', '0', '2', '8']
  else if c.toNat = 8233 then ['\\', 'u', '2', '0', '2', '9']
  else [c]

/-- A JSON string literal: quoted, escaped. -/
def jsonQuote (s : String) : String :=
  "\"" ++ String.mk (s.data.foldr (fun c acc => escapeChar c ++ acc) []) ++ "\""

/-- JSON rendering of a bool. -/
def jsonBool (b : Bool) : String := if b then "true" else "false"

/-- JSON rendering of a time.Time value: the quoted RFC3339 text (the model
carries timestamps as that text; RFC3339 needs no escaping). -/
def jsonTime (t : String) : String := "\"" ++ t ++ "\""

/-- json.MarshalIndent(task, "", "  ") rendering of one PageResult, nested
at depth 2 inside the pages array (fields indented six spaces). -/
def marshalPage (p : PageResult) : String :=
  "\x7b\n      \"id\": " ++ jsonQuote p.id ++
  ",\n      \"page_number\": " ++ toString p.pageNumber ++
  ",\n      \"image_path\": " ++ jsonQuote p.imagePath ++
  ",\n      \"image_url\": " ++ jsonQuote p.imageURL ++
  ",\n      \"text_path\": " ++ jsonQuote p.textPath ++
  ",\n      \"text_url\": " ++ jsonQuote p.textURL ++
  ",\n      \"has_text\": " ++ jsonBool p.hasText ++
  ",\n      \"source_text\": " ++ jsonQuote p.sourceText ++
  ",\n      \"translation\": " ++ jsonQuote p.translation ++
  ",\n      \"status\": " ++ jsonQuote p.status.str ++
  ",\n      \"error\": " ++ jsonQuote p.error ++
  ",\n      \"updated_at\": " ++ jsonTime p.updatedAt ++
  "\n    \x7d"

/-- json.MarshalIndent rendering of the pages array at depth 1. -/
def marshalPages (ps : List PageResult) : String :=
  match ps with
  | [] => "[]"
  | _ => "[\n    " ++ String.intercalate ",\n    " (ps.map marshalPage) ++ "\n  ]"

/-- json.MarshalIndent rendering of the ProviderInfo object at depth 1. -/
def marshalProviderInfo (pi : ProviderInfo) : String :=
  "\x7b\n    \"type\": " ++ jsonQuote pi.type ++
  ",\n    \"baseUrl\": " ++ jsonQuote pi.baseURL ++
  ",\n    \"model\": " ++ jsonQuote pi.model ++
  ",\n    \"maxTokens\": " ++ toString pi.maxTokens ++
  "\n  \x7d"

/-- The serialized fields preceding updated_at (Go struct order: id,
file_name, original_path, total_pages, pages, combined paths/urls,
created_at), up to and including the updated_at key. -/
def marshalTaskBefore (t : Task) : String :=
  "\x7b\n  \"id\": " ++ jsonQuote t.id ++
  ",\n  \"file_name\": " ++ jsonQuote t.fileName ++
  ",\n  \"original_path\": " ++ jsonQuote t.originalPath ++
  ",\n  \"total_pages\": " ++ toString t.totalPages ++
  ",\n  \"pages\": " ++ marshalPages t.pages ++
  ",\n  \"combined_txt_path\": " ++ jsonQuote t.combinedTxtPath ++
  ",\n  \"combined_txt_url\": " ++ jsonQuote t.combinedTxtURL ++
  ",\n  \"combined_pdf_path\": " ++ jsonQuote t.combinedPDFPath ++
  ",\n  \"combined_pdf_url\": " ++ jsonQuote t.combinedPDFURL ++
  ",\n  \"created_at\": " ++ jsonTime t.createdAt ++
  ",\n  \"updated_at\": "

/-- The serialized fields following updated_at (provider, formatting flags,
formatted artifact paths/urls, formatting progress counters). -/
def marshalTaskAfter (t : Task) : String :=
  ",\n  \"provider\": " ++ marshalProviderInfo t.provider ++
  ",\n  \"formatting_optimized\": " ++ jsonBool t.formattingOptimized ++
  ",\n  \"formatted_by_ai\": " ++ jsonBool t.formattedByAI ++
  ",\n  \"formatted_txt_path\": " ++ jsonQuote t.formattedTxtPath ++
  ",\n  \"formatted_txt_url\": " ++ jsonQuote t.formattedTxtURL ++
  ",\n  \"formatted_pdf_path\": " ++ jsonQuote t.formattedPDFPath ++
  ",\n  \"formatted_pdf_url\": " ++ jsonQuote t.formattedPDFURL ++
  ",\n  \"formatting_in_progress\": " ++ jsonBool t.formattingInProgress ++
  ",\n  \"formatting_total_chunks\": " ++ toString t.formattingTotalChunks ++
  ",\n  \"formatting_completed_chunks\": " ++ toString t.formattingCompletedChunks ++
  "\n\x7d"

/-- json.MarshalIndent(task, "", "  "): the bytes saveTaskLocked writes to
meta.json, in Go struct field order. -/
def marshalTask (t : Task) : String :=
  marshalTaskBefore t ++ jsonTime t.updatedAt ++ marshalTaskAfter t

/-- The byte-level task store: task id to the stored meta.json bytes. -/
abbrev ByteStore := String → Option String

/-- saveTaskLocked at the byte level: stamp updatedAt = now, serialize with
MarshalIndent, atomically replace the stored bytes for task.id. -/
def saveTaskLockedBytes (store : ByteStore) (t : Task) (now : String) : ByteStore :=
  fun i => if i = t.id then some (marshalTask ({ t with updatedAt := now })) else store i

/-! ## Example data -/

/-- A fully blank task, base for the concrete examples below. -/
def blankTask : Task :=
  { id := "t1", fileName := "doc.pdf", originalPath := "/s/source.pdf",
    totalPages := 0, pages := [], combinedTxtPath := "", combinedTxtURL := "",
    combinedPDFPath := "", combinedPDFURL := "", createdAt := "T0",
    updatedAt := "T0", provider := ⟨"openai", "", "m", 8192⟩,
    formattingOptimized := true, formattedByAI := false, formattedTxtPath := "",
    formattedTxtURL := "", formattedPDFPath := "", formattedPDFURL := "",
    formattingInProgress := false, formattingTotalChunks := 0,
    formattingCompletedChunks := 0 }

/-! ## C2 -/

/-- C2 example: the store after a formatting run of 4 chunks finished
successfully on task t1 (the success path of FormatTaskLayout ran). -/
def storeC2 : Store :=
  fun i => if i = "t1" then some (successFinalizeUpdate 4 "/s/formatted.txt" "/u/formatted.txt" blankTask) else none

/-- C2: on a re-run of formatting over a task whose previous run succeeded,
the very first persisted progress update (FormatTaskLayout lines 465-471,
via updateFormattingState) produces a stored task with formattedByAI = true
and formattingInProgress = true simultaneously, because the start-of-run
update never clears formattedByAI.  This is the state any external reader
loading the task observes, contradicting the claimed invariant. -/
theorem c2_rerun_persists_both_flags :
    (match updateFormattingState storeC2 "t1" (startFormattingUpdate 2) "T9" with
     | some st => (st "t1").map (fun t => (t.formattedByAI, t.formattingInProgress))
     | none => none)
    = some (true, true) := by decide

/-! ## C3 -/

/-- C3 counterexample: a chunk of 10 runes whose first Format call succeeds
but returns 2 runes (< 10/2) is failed immediately by processChunk: no
backoff sleep, no retry (the second attempt, which would have succeeded, is
never made), and the concurrency cap is left untouched — while the same
position failing with a 429 is retried (one 1s sleep, cap lowered to 1) and
then completes.  The truncation failure therefore does not take the
rate-limit retry/backoff path. -/
theorem c3_counterexample :
    runChunk 1 "abcdefghij" 3 0 [FormatOutcome.ok "ab", FormatOutcome.ok "abcdefghij"]
      = ⟨ChunkDisposition.failed (truncMsg 1), [], 3⟩
    ∧ runChunk 1 "abcdefghij" 3 0 [FormatOutcome.err "429", FormatOutcome.ok "abcdefghij"]
      = ⟨ChunkDisposition.completed "abcdefghij", [1], 1⟩ := by decide

/-- C3 amended: a successful Format call whose trimmed output has fewer
runes than half the input chunk's rune count is treated as a truncation
failure that immediately sets the run's first error (cancelling the run),
with no retry, no backoff sleep, and no concurrency-cap change — unlike the
rate-limit path. -/
theorem c3_truncation_fails_immediately (idx1 : Nat) (data result : String)
    (cap retries : Nat) (rest : List FormatOutcome)
    (hpos : 0 < data.data.length)
    (hshort : (goTrimSpace result).data.length < data.data.length / 2) :
    runChunk idx1 data cap retries (FormatOutcome.ok result :: rest)
      = ⟨ChunkDisposition.failed (truncMsg idx1), [], cap⟩ := by
  simp only [runChunk]
  rw [if_pos ⟨hpos, hshort⟩]

/-- C3 witness: the amended theorem applied at a concrete truncated chunk. -/
theorem c3_truncation_fails_immediately_witness :
    runChunk 1 "abcdefghij" 3 0 [FormatOutcome.ok "ab"]
      = ⟨ChunkDisposition.failed (truncMsg 1), [], 3⟩ :=
  c3_truncation_fails_immediately 1 "abcdefghij" "ab" 3 0 [] (by decide) (by decide)

/-! ## C4 -/

/-- C4: (1) a chunk whose first four Format attempts all fail with
rate-limit-classified errors is retried exactly 3 times with linear
whole-second backoff (sleeps 1s, 2s, 3s), the shared concurrency cap is
lowered to 1, and the fourth failure sets the run's first error (failing
the whole run); (2) the retry loop never raises the cap (the lowering is
permanent for the remainder of the run); (3) the failed-run finalizer
persists formattingInProgress = false while retaining the completed-chunk
count reached before cancellation. -/
theorem c4_rate_limit_retry_path :
    (∀ (m1 m2 m3 m4 : String) (rest : List FormatOutcome) (idx1 : Nat)
        (data : String) (cap : Nat),
      formatterIsRateLimit m1 = true → formatterIsRateLimit m2 = true →
      formatterIsRateLimit m3 = true → formatterIsRateLimit m4 = true →
      1 ≤ cap →
      runChunk idx1 data cap 0
          ([FormatOutcome.err m1, FormatOutcome.err m2,
            FormatOutcome.err m3, FormatOutcome.err m4] ++ rest)
        = ⟨ChunkDisposition.failed m4, [1, 2, 3], 1⟩)
    ∧ (∀ (idx1 : Nat) (data : String) (cap retries : Nat)
        (outs : List FormatOutcome),
        (runChunk idx1 data cap retries outs).cap ≤ cap)
    ∧ (∀ (total progress : Nat) (t : Task),
        (failureFinalizeUpdate total progress t).formattingInProgress = false
        ∧ (failureFinalizeUpdate total progress t).formattingCompletedChunks = progress) := by
  refine ⟨?_, ?_, ?_⟩
  · intro m1 m2 m3 m4 rest idx1 data cap h1 h2 h3 h4 hcap
    have hc1 : (if cap > 1 then 1 else cap) = 1 := by split <;> omega
    simp [runChunk, h1, h2, h3, h4, hc1]
  · intro idx1 data cap retries outs
    induction outs generalizing cap retries with
    | nil => exact le_refl cap
    | cons o rest ih =>
        cases o with
        | err m =>
            simp only [runChunk]
            split
            · have hmono := ih (if cap > 1 then 1 else cap) (retries + 1)
              have hle : (if cap > 1 then 1 else cap) ≤ cap := by split <;> omega
              exact le_trans hmono hle
            · exact le_refl cap
        | ok result =>
            simp only [runChunk]
            split
            · exact le_refl cap
            · exact le_refl cap
  · intro total progress t
    exact ⟨rfl, rfl⟩

/-- C4 witness: four successive rate-limit-classified failures at cap 3. -/
theorem c4_rate_limit_retry_path_witness :
    runChunk 2 "x" 3 0
        [FormatOutcome.err "HTTP 429", FormatOutcome.err "rate limit hit",
         FormatOutcome.err "max concurrency", FormatOutcome.err "503 unavailable"]
      = ⟨ChunkDisposition.failed "503 unavailable", [1, 2, 3], 1⟩ := by
  have h := c4_rate_limit_retry_path.1 "HTTP 429" "rate limit hit"
    "max concurrency" "503 unavailable" [] 2 "x" 3
    (by decide) (by decide) (by decide) (by decide) (by decide)
  simpa using h

/-! ## C7 -/

/-- C7: when the Translate invocation for a page fails, translateSinglePage
sets status Error, records the error string, and leaves hasText,
sourceText and translation exactly as they were before the invocation. -/
theorem c7_failure_preserves_text_fields (env : TransEnv) (store : Store)
    (task : Task) (page : PageResult) (merge : Bool) (now e : String)
    (h : env.oracle page.pageNumber = TransOutcome.fail e) :
    ((translateSinglePage env store task page merge now).2.2.status = PageStatus.error)
    ∧ ((translateSinglePage env store task page merge now).2.2.error = e)
    ∧ ((translateSinglePage env store task page merge now).2.2.hasText = page.hasText)
    ∧ ((translateSinglePage env store task page merge now).2.2.sourceText = page.sourceText)
    ∧ ((translateSinglePage env store task page merge now).2.2.translation = page.translation) := by
  simp [translateSinglePage, h]

/-- C7 example: a page holding text from an earlier successful attempt. -/
def pageC7 : PageResult :=
  { id := "p1", pageNumber := 1, imagePath := "/s/p1.png", imageURL := "/u/p1.png",
    textPath := "/s/p1.txt", textURL := "/u/p1.txt", hasText := true,
    sourceText := "source one", translation := "translation one",
    status := .completed, error := "", updatedAt := "T1" }

/-- C7 example: a translator whose second invocation fails. -/
def envC7 : TransEnv :=
  { oracle := fun _ => TransOutcome.fail "provider unreachable",
    writeErr := none, textURLOf := fun _ => "/u/p1.txt" }

/-- C7 witness: a failed re-translation of pageC7 keeps attempt one's text. -/
theorem c7_failure_preserves_text_fields_witness :
    ((translateSinglePage envC7 (fun _ => none) blankTask pageC7 true "T2").2.2.translation
      = "translation one")
    ∧ ((translateSinglePage envC7 (fun _ => none) blankTask pageC7 true "T2").2.2.error
      = "provider unreachable") := by
  have h := c7_failure_preserves_text_fields envC7 (fun _ => none) blankTask pageC7 true
    "T2" "provider unreachable" rfl
  exact ⟨h.2.2.2.2, h.2.1⟩

/-! ## C8 -/

/-- C8: for every provider type and every sanitized token budget, the
per-chunk byte budget equals ⌊tokens·4·0.4⌋ = ⌊8·tokens/5⌋ clamped into
[12KiB, 60KiB], with OpenAI-compatible providers additionally halving the
clamped budget, the halved value still respecting the 12KiB floor. -/
theorem c8_chunk_size_formula (p : ProviderType) (v : Int) :
    estimateFormatterChunkSize p (SanitizeMaxTokens v)
      = (if p = ProviderType.openai then
           max ((min (max (8 * SanitizeMaxTokens v / 5) (minFormatterChunk : Int))
                  ((formatterChunkSize : Int))) / 2) (minFormatterChunk : Int)
         else
           min (max (8 * SanitizeMaxTokens v / 5) (minFormatterChunk : Int))
             ((formatterChunkSize : Int))) := by
  have ht : 0 < SanitizeMaxTokens v := by
    unfold SanitizeMaxTokens; split <;> omega
  unfold estimateFormatterChunkSize formatterChunkSize minFormatterChunk
  dsimp only
  push_cast
  split_ifs <;> omega

/-! ## C1 -/

/-- C1 example: page A, pending, about to be translated by the pool. -/
def pageA1 : PageResult :=
  { id := "A", pageNumber := 1, imagePath := "/s/p1.png", imageURL := "/u/p1.png",
    textPath := "/s/p1.txt", textURL := "", hasText := false, sourceText := "",
    translation := "", status := .pending, error := "", updatedAt := "T0" }

/-- C1 example: page B as the pool's in-memory task still sees it. -/
def pageB1 : PageResult :=
  { id := "B", pageNumber := 2, imagePath := "/s/p2.png", imageURL := "/u/p2.png",
    textPath := "/s/p2.txt", textURL := "", hasText := false, sourceText := "",
    translation := "", status := .pending, error := "", updatedAt := "T0" }

/-- C1 example: the worker's in-memory task (pages A and B, both stale). -/
def taskC1 : Task :=
  { blankTask with id := "t1", totalPages := 2, pages := [pageA1, pageB1] }

/-- C1 example: the store, in which another writer has concurrently saved
page B with translation "fresh". -/
def storeC1 : Store :=
  fun i =>
    if i = "t1" then
      some ({ taskC1 with
              pages := [pageA1,
                        { pageB1 with hasText := true, translation := "fresh",
                                      status := .completed, updatedAt := "T1" }],
              updatedAt := "T1" })
    else none

/-- C1 example: a translator that succeeds on page 1. -/
def envC1 : TransEnv :=
  { oracle := fun n =>
      if n = 1 then TransOutcome.ok ⟨true, " src one ", " trA "⟩
      else TransOutcome.fail "unexpected page",
    writeErr := none, textURLOf := fun _ => "/u/p1.txt" }

/-- C1 counterexample: the background worker pool (translateTaskPages, which
calls translateSinglePage with mergeOnSave = false) persists page A's result
by saving the whole in-memory task without reloading the store, so page B's
concurrently-saved translation "fresh" is reverted to the stale "" — the
persisted write is not the claimed merge-by-id write, and it does clobber
another writer's concurrently-saved page. -/
theorem c1_counterexample :
    ((storeC1 "t1").map (fun tk => tk.pages.map (fun p => (p.id, p.translation)))
      = some [("A", ""), ("B", "fresh")])
    ∧ ((match (translateTaskPages envC1 storeC1 taskC1 [pageA1] "T2").1 with
        | some st => (st "t1").map (fun tk => tk.pages.map (fun p => (p.id, p.translation)))
        | none => none)
      = some [("A", "trA"), ("B", "")]) := by decide

/-- A page of the reloaded task whose id differs from the merged page's id
survives the replace-by-id-or-append merge. -/
lemma mergePageById_mem_of_ne (ps : List PageResult) (page q : PageResult)
    (hq : q ∈ ps) (hne : q.id ≠ page.id) : q ∈ mergePageById ps page := by
  induction ps with
  | nil => cases hq
  | cons x rest ih =>
      cases hq with
      | head =>
          simp only [mergePageById]
          split
          · exact absurd (by assumption) hne
          · exact List.mem_cons_self q _
      | tail _ hmem =>
          simp only [mergePageById]
          split
          · exact List.mem_cons_of_mem _ hmem
          · exact List.mem_cons_of_mem _ (ih hmem)

/-- C1 amended: the background worker pool persists each page by saving the
shared in-memory task as-is (persistPageUpdate with merge=false performs no
reload and no merge); the merge-by-id write — reload the current task,
replace the page with matching id or append it, save the merged task — is
performed only when merge=true, the flag used by the synchronous
single-page retranslation path, and that write preserves every
concurrently-saved sibling page of the stored task. -/
theorem c1_merge_by_id_semantics :
    (∀ (store : Store) (task : Task) (page : PageResult) (now : String),
       persistPageUpdate store task page false now = some (saveTask store task now))
    ∧ (∀ (store : Store) (task : Task) (page : PageResult) (now : String) (cur : Task),
       store task.id = some cur →
       persistPageUpdate store task page true now
         = some (saveTask store ({ cur with pages := mergePageById cur.pages page }) now)
       ∧ (∀ q ∈ cur.pages, q.id ≠ page.id → q ∈ mergePageById cur.pages page)) := by
  constructor
  · intro store task page now
    rfl
  · intro store task page now cur hload
    refine ⟨by simp [persistPageUpdate, loadTask, hload], ?_⟩
    intro q hq hne
    exact mergePageById_mem_of_ne cur.pages page q hq hne

/-- C1 amended-claim witness: merge-by-id applied at a concrete store in
which page B was concurrently saved; B survives the merge of A. -/
theorem c1_merge_by_id_semantics_witness :
    persistPageUpdate storeC1 taskC1
        ({ pageA1 with translation := "trA", status := .completed }) true "T2"
      = some (saveTask storeC1
          ({ taskC1 with
             pages := mergePageById
               [pageA1,
                { pageB1 with hasText := true, translation := "fresh",
                              status := .completed, updatedAt := "T1" }]
               ({ pageA1 with translation := "trA", status := .completed }),
             updatedAt := "T1" }) "T2") := by
  have h := (c1_merge_by_id_semantics.2 storeC1 taskC1
    ({ pageA1 with translation := "trA", status := .completed }) "T2"
    ({ taskC1 with
       pages := [pageA1,
                 { pageB1 with hasText := true, translation := "fresh",
                               status := .completed, updatedAt := "T1" }],
       updatedAt := "T1" }) (by decide)).1
  exact h

/-! ## C9 -/

/-- C9: loading a stored task and saving it back with no field mutation
rewrites meta.json byte-identically except the updated_at value, which
saveTaskLocked re-stamps: the stored bytes factor as pre ++ old-timestamp ++
post, the re-saved bytes are pre ++ new-timestamp ++ post, and pre/post are
exactly the serializations of every other field (unchanged by the
re-stamp).  The stored bytes being marshalTask t models Load returning the
task t whose serialization the store holds (every save writes marshalTask,
and encoding/json unmarshal inverts it on this aggregate). -/
theorem c9_save_load_byte_identical (store : ByteStore) (id : String) (t : Task)
    (now : String) (hstored : store id = some (marshalTask t)) (hid : t.id = id) :
    ∃ pre post,
      store id = some (pre ++ jsonTime t.updatedAt ++ post)
      ∧ saveTaskLockedBytes store t now id = some (pre ++ jsonTime now ++ post)
      ∧ pre = marshalTaskBefore ({ t with updatedAt := now })
      ∧ post = marshalTaskAfter ({ t with updatedAt := now }) := by
  refine ⟨marshalTaskBefore t, marshalTaskAfter t, ?_, ?_, rfl, rfl⟩
  · exact hstored
  · subst hid
    have hsave : saveTaskLockedBytes store t now t.id
        = some (marshalTask ({ t with updatedAt := now })) := by
      unfold saveTaskLockedBytes
      rw [if_pos rfl]
    rw [hsave]
    rfl

/-- C9 example: a completed page with stored text. -/
def pageC9 : PageResult :=
  { id := "p1", pageNumber := 1, imagePath := "/s/p1.png", imageURL := "/u/p1.png",
    textPath := "/s/p1.txt", textURL := "", hasText := true, sourceText := "s",
    translation := "tr", status := .completed, error := "", updatedAt := "T1" }

/-- C9 example: a one-page task with stored metadata. -/
def taskC9 : Task :=
  { blankTask with id := "t9", totalPages := 1, pages := [pageC9], updatedAt := "T1" }

/-- C9 example: a byte store holding taskC9's serialized metadata. -/
def byteStoreC9 : ByteStore :=
  fun i => if i = "t9" then some (marshalTask taskC9) else none

/-- C9 witness: the round-trip factorization at a concrete stored task. -/
theorem c9_save_load_byte_identical_witness :
    ∃ pre post,
      byteStoreC9 "t9" = some (pre ++ jsonTime taskC9.updatedAt ++ post)
      ∧ saveTaskLockedBytes byteStoreC9 taskC9 "T2" "t9" = some (pre ++ jsonTime "T2" ++ post)
      ∧ pre = marshalTaskBefore ({ taskC9 with updatedAt := "T2" })
      ∧ post = marshalTaskAfter ({ taskC9 with updatedAt := "T2" }) :=
  c9_save_load_byte_identical byteStoreC9 "t9" taskC9 "T2" rfl rfl

/-! ## C6 -/

/-- intRange lo hi is empty exactly when the Go loop body never runs. -/
lemma intRange_isEmpty_iff (lo hi : Int) : (intRange lo hi).isEmpty = true ↔ hi < lo := by
  rw [List.isEmpty_iff, ← List.length_eq_zero]
  unfold intRange
  rw [List.length_map, List.length_range]
  omega

/-- The custom case with a positive limit selects pages 1..min(limit, total). -/
lemma initialRangeResult_custom (total : Int) (s : TranslationSettings)
    (hm : goToLower (goTrimSpace s.rangeMode) = "custom") (hl : 1 ≤ s.rangeCustom) :
    initialRangeResult total s = intRange 1 (min s.rangeCustom total) := by
  simp only [initialRangeResult, hm, if_true]
  rw [if_neg (by omega : ¬ s.rangeCustom ≤ 0)]
  have hlim : (if s.rangeCustom > total then total else s.rangeCustom) = min s.rangeCustom total := by
    split <;> omega
  rw [hlim]

/-- The custom case with a non-positive limit selects nothing (break). -/
lemma initialRangeResult_custom_nonpos (total : Int) (s : TranslationSettings)
    (hm : goToLower (goTrimSpace s.rangeMode) = "custom") (hl : s.rangeCustom ≤ 0) :
    initialRangeResult total s = [] := by
  simp only [initialRangeResult, hm, if_true]
  rw [if_pos hl]

/-- The range case with at least one positive bound applies defaults, swaps
inverted ends and clamps both ends to the page count. -/
lemma initialRangeResult_range (total : Int) (s : TranslationSettings)
    (hm : goToLower (goTrimSpace s.rangeMode) = "range")
    (hno : ¬(s.rangeStart ≤ 0 ∧ s.rangeEnd ≤ 0)) :
    initialRangeResult total s =
      intRange
        (min (min (if s.rangeStart ≤ 0 then 1 else s.rangeStart)
                  (if s.rangeEnd ≤ 0 then total else s.rangeEnd)) total)
        (min (max (if s.rangeStart ≤ 0 then 1 else s.rangeStart)
                  (if s.rangeEnd ≤ 0 then total else s.rangeEnd)) total) := by
  simp only [initialRangeResult, hm, if_true]
  rw [if_neg (show ¬ ("range" : String) = "custom" by decide), if_neg hno]
  set s0 : Int := if s.rangeStart ≤ 0 then 1 else s.rangeStart with hs0
  set e0 : Int := if s.rangeEnd ≤ 0 then total else s.rangeEnd with he0
  by_cases hsw : s0 > e0
  · rw [if_pos hsw]
    dsimp only
    have hA : (if e0 > total then total else e0) = min (min s0 e0) total := by
      split <;> omega
    have hB : (if s0 > total then total else s0) = min (max s0 e0) total := by
      split <;> omega
    rw [hA, hB]
  · rw [if_neg hsw]
    dsimp only
    have hA : (if s0 > total then total else s0) = min (min s0 e0) total := by
      split <;> omega
    have hB : (if e0 > total then total else e0) = min (max s0 e0) total := by
      split <;> omega
    rw [hA, hB]

/-- The range case with both bounds non-positive selects nothing (break). -/
lemma initialRangeResult_range_nonpos (total : Int) (s : TranslationSettings)
    (hm : goToLower (goTrimSpace s.rangeMode) = "range")
    (h1 : s.rangeStart ≤ 0) (h2 : s.rangeEnd ≤ 0) :
    initialRangeResult total s = [] := by
  simp only [initialRangeResult, hm, if_true]
  rw [if_neg (show ¬ ("range" : String) = "custom" by decide),
      if_pos (show s.rangeStart ≤ 0 ∧ s.rangeEnd ≤ 0 from ⟨h1, h2⟩)]

/-- Any other mode string selects nothing in the switch. -/
lemma initialRangeResult_default (total : Int) (s : TranslationSettings)
    (hm1 : goToLower (goTrimSpace s.rangeMode) ≠ "custom")
    (hm2 : goToLower (goTrimSpace s.rangeMode) ≠ "range") :
    initialRangeResult total s = [] := by
  simp only [initialRangeResult]
  rw [if_neg hm1, if_neg hm2]

/-- C6 scenario environment: concrete page ids and artifact paths. -/
def envScenario : CreateEnv :=
  ⟨fun n => "id-" ++ toString n, fun n => "/s/p" ++ toString n ++ ".png",
   fun n => "/s/p" ++ toString n ++ ".txt", fun n => "/u/p" ++ toString n ++ ".png"⟩

/-- C6: the initial page selection policy of CreateTask.  A custom limit
≥ 1 selects pages 1..min(limit, total); a non-positive custom limit falls
back to all pages; an explicit range with a positive end has its defaults
applied, ends swapped if inverted and clamped to the page count; a range
with both ends non-positive falls back to all pages; any other mode
selects all pages.  Every page not selected is immediately marked
Completed with empty text fields and empty error (stamped with the second
timestamp), while selected pages stay Pending.  Concretely, for 5 pages
with custom limit 3, pages 1-3 are Pending and pages 4-5 are Completed
with empty translation and error. -/
theorem c6_initial_selection :
    (∀ (total : Int) (s : TranslationSettings),
       goToLower (goTrimSpace s.rangeMode) = "custom" → 1 ≤ s.rangeCustom →
       determineInitialPageSet total s = intRange 1 (min s.rangeCustom total))
    ∧ (∀ (total : Int) (s : TranslationSettings),
       goToLower (goTrimSpace s.rangeMode) = "custom" → s.rangeCustom ≤ 0 →
       determineInitialPageSet total s = intRange 1 total)
    ∧ (∀ (total : Int) (s : TranslationSettings),
       goToLower (goTrimSpace s.rangeMode) = "range" →
       ¬(s.rangeStart ≤ 0 ∧ s.rangeEnd ≤ 0) →
       determineInitialPageSet total s =
         intRange
           (min (min (if s.rangeStart ≤ 0 then 1 else s.rangeStart)
                     (if s.rangeEnd ≤ 0 then total else s.rangeEnd)) total)
           (min (max (if s.rangeStart ≤ 0 then 1 else s.rangeStart)
                     (if s.rangeEnd ≤ 0 then total else s.rangeEnd)) total))
    ∧ (∀ (total : Int) (s : TranslationSettings),
       goToLower (goTrimSpace s.rangeMode) = "range" →
       s.rangeStart ≤ 0 → s.rangeEnd ≤ 0 →
       determineInitialPageSet total s = intRange 1 total)
    ∧ (∀ (total : Int) (s : TranslationSettings),
       goToLower (goTrimSpace s.rangeMode) ≠ "custom" →
       goToLower (goTrimSpace s.rangeMode) ≠ "range" →
       determineInitialPageSet total s = intRange 1 total)
    ∧ (∀ (env : CreateEnv) (total : Int) (s : TranslationSettings) (now now2 : String),
       ∀ p ∈ createTaskPages env total s now now2,
         ((determineInitialPageSet total s).contains p.pageNumber = false →
           p.status = PageStatus.completed ∧ p.hasText = false ∧ p.sourceText = ""
           ∧ p.translation = "" ∧ p.error = "" ∧ p.updatedAt = now2)
         ∧ ((determineInitialPageSet total s).contains p.pageNumber = true →
           p.status = PageStatus.pending ∧ p.updatedAt = now))
    ∧ ((createTaskPages envScenario 5 ⟨"custom", 3, 0, 0, 0⟩ "T1" "T2").map
          (fun p => (p.pageNumber, p.status, p.translation, p.error))
        = [(1, PageStatus.pending, "", ""), (2, PageStatus.pending, "", ""),
           (3, PageStatus.pending, "", ""), (4, PageStatus.completed, "", ""),
           (5, PageStatus.completed, "", "")]) := by
  refine ⟨?_, ?_, ?_, ?_, ?_, ?_, ?_⟩
  · intro total s hm hl
    unfold determineInitialPageSet
    rw [initialRangeResult_custom total s hm hl]
    by_cases hT : total ≤ 0
    · rw [if_pos (by rw [intRange_isEmpty_iff]; omega)]
      have h1 : min s.rangeCustom total = total := by omega
      rw [h1]
    · rw [if_neg (by rw [intRange_isEmpty_iff]; omega)]
  · intro total s hm hl
    unfold determineInitialPageSet
    rw [initialRangeResult_custom_nonpos total s hm hl]
    rfl
  · intro total s hm hno
    unfold determineInitialPageSet
    rw [initialRangeResult_range total s hm hno]
    rw [if_neg (by rw [intRange_isEmpty_iff]; omega)]
  · intro total s hm h1 h2
    unfold determineInitialPageSet
    rw [initialRangeResult_range_nonpos total s hm h1 h2]
    rfl
  · intro total s hm1 hm2
    unfold determineInitialPageSet
    rw [initialRangeResult_default total s hm1 hm2]
    rfl
  · intro env total s now now2 p hp
    simp only [createTaskPages] at hp
    rw [List.mem_map] at hp
    obtain ⟨n, hn, rfl⟩ := hp
    by_cases hsel : (determineInitialPageSet total s).contains n = true
    · rw [if_pos hsel]
      constructor
      · intro hc
        rw [hsel] at hc
        cases hc
      · intro _
        exact ⟨rfl, rfl⟩
    · rw [if_neg hsel]
      constructor
      · intro _
        exact ⟨rfl, rfl, rfl, rfl, rfl, rfl⟩
      · intro hc
        exact absurd hc hsel
  · decide

/-- C6 witness: the selection policy applied at concrete settings (custom
limit 3 of 5 pages, a trimmed mixed-case inverted range, an unknown mode). -/
theorem c6_initial_selection_witness :
    determineInitialPageSet 5 ⟨"custom", 3, 0, 0, 0⟩ = [1, 2, 3]
    ∧ determineInitialPageSet 5 ⟨" Range ", 0, 4, 2, 0⟩ = [2, 3, 4]
    ∧ determineInitialPageSet 5 ⟨"all", 0, 0, 0, 0⟩ = [1, 2, 3, 4, 5] := by
  refine ⟨?_, ?_, ?_⟩
  · have h := c6_initial_selection.1 5 ⟨"custom", 3, 0, 0, 0⟩ (by decide) (by decide)
    rw [h]; decide
  · have h := c6_initial_selection.2.2.1 5 ⟨" Range ", 0, 4, 2, 0⟩ (by decide) (by decide)
    rw [h]; decide
  · have h := c6_initial_selection.2.2.2.2.1 5 ⟨"all", 0, 0, 0, 0⟩ (by decide) (by decide)
    rw [h]; decide

/-! ## C5 -/


/-- The claimed per-page invariant: Completed implies empty error, Error
implies non-empty error. -/
def pageInv (p : PageResult) : Prop :=
  (p.status = PageStatus.completed → p.error = "")
  ∧ (p.status = PageStatus.error → p.error ≠ "")

/-- Every page of every persisted task satisfies the page invariant. -/
def storeInv (store : Store) : Prop :=
  ∀ id t, store id = some t → ∀ p ∈ t.pages, pageInv p

/-- The write-failure error string always carries its non-empty prefix. -/
lemma prefixed_error_ne_empty (w : String) : ("写入TXT失败: " ++ w) ≠ "" := by
  intro h
  have h2 := congrArg String.data h
  rw [String.data_append] at h2
  simp at h2

/-- saveTask preserves the store invariant when the saved task satisfies
the page invariant. -/
lemma storeInv_saveTask (store : Store) (task : Task) (now : String)
    (hs : storeInv store) (ht : ∀ p ∈ task.pages, pageInv p) :
    storeInv (saveTask store task now) := by
  intro id t hload p hp
  unfold saveTask at hload
  split at hload
  · cases hload
    exact ht p hp
  · exact hs id t hload p hp

/-- mergePageById preserves the page invariant. -/
lemma pageInv_mergePageById (ps : List PageResult) (page : PageResult)
    (hps : ∀ p ∈ ps, pageInv p) (hpage : pageInv page) :
    ∀ p ∈ mergePageById ps page, pageInv p := by
  induction ps with
  | nil =>
      intro p hp
      rcases List.mem_singleton.mp hp with rfl
      exact hpage
  | cons x rest ih =>
      intro p hp
      simp only [mergePageById] at hp
      split at hp
      · rcases List.mem_cons.mp hp with rfl | hmem
        · exact hpage
        · exact hps p (List.mem_cons_of_mem _ hmem)
      · rcases List.mem_cons.mp hp with rfl | hmem
        · exact hps p (List.mem_cons_self _ _)
        · exact ih (fun q hq => hps q (List.mem_cons_of_mem _ hq)) p hmem

/-- setPage preserves the page invariant. -/
lemma pageInv_setPage (task : Task) (page : PageResult)
    (htask : ∀ p ∈ task.pages, pageInv p) (hpage : pageInv page) :
    ∀ p ∈ (setPage task page).pages, pageInv p := by
  intro p hp
  simp only [setPage] at hp
  rw [List.mem_map] at hp
  obtain ⟨q, hq, rfl⟩ := hp
  split
  · exact hpage
  · exact htask q hq

/-- persistPageUpdate preserves the store invariant on both its paths. -/
lemma storeInv_persistPageUpdate (store : Store) (task : Task) (page : PageResult)
    (merge : Bool) (now : String) (st' : Store)
    (hs : storeInv store) (ht : ∀ p ∈ task.pages, pageInv p) (hpage : pageInv page)
    (h : persistPageUpdate store task page merge now = some st') : storeInv st' := by
  unfold persistPageUpdate at h
  split at h
  · cases h
    exact storeInv_saveTask store task now hs ht
  · cases hload : loadTask store task.id with
    | none => rw [hload] at h; cases h
    | some cur =>
        rw [hload] at h
        cases h
        refine storeInv_saveTask store _ now hs ?_
        exact pageInv_mergePageById cur.pages page (hs task.id cur hload) hpage

/-- translateSinglePage: every store it writes, the in-memory task it
leaves, and the page it updates satisfy the invariant, provided the
translator never fails with an empty error string. -/
lemma c5_translateSinglePage (env : TransEnv) (store : Store) (task : Task)
    (page : PageResult) (merge : Bool) (now : String)
    (horacle : ∀ n e, env.oracle n = TransOutcome.fail e → e ≠ "")
    (hs : storeInv store) (ht : ∀ p ∈ task.pages, pageInv p) :
    (∀ st', (translateSinglePage env store task page merge now).1 = some st' → storeInv st')
    ∧ (∀ p ∈ (translateSinglePage env store task page merge now).2.1.pages, pageInv p)
    ∧ pageInv (translateSinglePage env store task page merge now).2.2 := by
  cases hor : env.oracle page.pageNumber with
  | fail e =>
      have he : e ≠ "" := horacle page.pageNumber e hor
      simp only [translateSinglePage, hor]
      have hpg : pageInv { page with status := PageStatus.error, error := e, updatedAt := now } :=
        ⟨fun h => (nomatch h), fun _ => he⟩
      refine ⟨?_, pageInv_setPage task _ ht hpg, hpg⟩
      intro st' hst'
      cases hst'
      exact storeInv_saveTask store _ now hs (pageInv_setPage task _ ht hpg)
  | ok res =>
      simp only [translateSinglePage, hor]
      by_cases hcond : res.hasText = true ∧ goTrimSpace res.translatedText ≠ ""
      · rw [if_pos hcond]
        cases hw : env.writeErr with
        | some werr =>
            have hpg : pageInv
                { page with
                  hasText := res.hasText,
                  sourceText := goTrimSpace res.sourceText,
                  translation := goTrimSpace res.translatedText,
                  status := PageStatus.error,
                  error := "写入TXT失败: " ++ werr,
                  updatedAt := now } :=
              ⟨fun h => (nomatch h), fun _ => prefixed_error_ne_empty werr⟩
            refine ⟨?_, pageInv_setPage task _ ht hpg, hpg⟩
            intro st' hst'
            cases hst'
            exact storeInv_saveTask store _ now hs (pageInv_setPage task _ ht hpg)
        | none =>
            have hpg : pageInv
                { page with
                  hasText := res.hasText,
                  sourceText := goTrimSpace res.sourceText,
                  translation := goTrimSpace res.translatedText,
                  error := "",
                  textURL := env.textURLOf page.pageNumber,
                  status := PageStatus.completed,
                  updatedAt := now } :=
              ⟨fun _ => rfl, fun h => (nomatch h)⟩
            refine ⟨?_, pageInv_setPage task _ ht hpg, hpg⟩
            intro st' hst'
            exact storeInv_persistPageUpdate store _ _ merge now st' hs
              (pageInv_setPage task _ ht hpg) hpg hst'
      · rw [if_neg hcond]
        have hpg : pageInv
            { page with
              hasText := res.hasText,
              sourceText := goTrimSpace res.sourceText,
              translation := goTrimSpace res.translatedText,
              error := "",
              textURL := "",
              status := PageStatus.completed,
              updatedAt := now } :=
          ⟨fun _ => rfl, fun h => (nomatch h)⟩
        refine ⟨?_, pageInv_setPage task _ ht hpg, hpg⟩
        intro st' hst'
        exact storeInv_persistPageUpdate store _ _ merge now st' hs
          (pageInv_setPage task _ ht hpg) hpg hst'



/-- Once a pool step lost the store (impossible for merge=false, but the
fold must account for it), it stays lost. -/
lemma poolFold_none (env : TransEnv) (now : String) :
    ∀ (l : List PageResult) (tk : Task),
      (l.foldl (poolStep env now) (none, tk)).1 = none := by
  intro l
  induction l with
  | nil => intro tk; rfl
  | cons p rest ih =>
      intro tk
      rw [List.foldl_cons]
      exact ih tk

/-- The worker-pool fold preserves the store invariant. -/
lemma c5_pool_aux (env : TransEnv) (now : String)
    (horacle : ∀ n e, env.oracle n = TransOutcome.fail e → e ≠ "") :
    ∀ (pages : List PageResult) (store : Store) (task : Task),
      storeInv store → (∀ p ∈ task.pages, pageInv p) →
      ∀ st', (pages.foldl (poolStep env now) (some store, task)).1 = some st' →
        storeInv st' := by
  intro pages
  induction pages with
  | nil =>
      intro store task hs ht st' h
      cases h
      exact hs
  | cons p rest ih =>
      intro store task hs ht st' h
      rw [List.foldl_cons] at h
      simp only [poolStep] at h
      have hc := c5_translateSinglePage env store task p false now horacle hs ht
      cases hr : (translateSinglePage env store task p false now).1 with
      | none =>
          rw [hr] at h
          rw [poolFold_none env now rest _] at h
          cases h
      | some st1 =>
          rw [hr] at h
          exact ih st1 (translateSinglePage env store task p false now).2.1
            (hc.1 st1 hr) hc.2.1 st' h

/-- C5: in every persisted task state produced by task creation, by the
worker-pool translation fold, or by a single-page (re)translation, every
page satisfies: status Completed implies error = "", and status Error
implies error is non-empty — provided provider failures carry non-empty
error strings (every fmt.Errorf in the translators does). -/
theorem c5_status_error_invariant :
    (∀ (env : CreateEnv) (total : Int) (s : TranslationSettings) (now now2 : String),
       ∀ p ∈ createTaskPages env total s now now2, pageInv p)
    ∧ (∀ (store : Store) (task : Task) (now : String),
       storeInv store → (∀ p ∈ task.pages, pageInv p) →
       storeInv (saveTask store task now))
    ∧ (∀ (env : TransEnv) (store : Store) (task : Task) (page : PageResult)
        (merge : Bool) (now : String),
       (∀ n e, env.oracle n = TransOutcome.fail e → e ≠ "") →
       storeInv store → (∀ p ∈ task.pages, pageInv p) →
       (∀ st', (translateSinglePage env store task page merge now).1 = some st' → storeInv st')
       ∧ (∀ p ∈ (translateSinglePage env store task page merge now).2.1.pages, pageInv p)
       ∧ pageInv (translateSinglePage env store task page merge now).2.2)
    ∧ (∀ (env : TransEnv) (store : Store) (task : Task) (pages : List PageResult)
        (now : String) (st' : Store),
       (∀ n e, env.oracle n = TransOutcome.fail e → e ≠ "") →
       storeInv store → (∀ p ∈ task.pages, pageInv p) →
       (translateTaskPages env store task pages now).1 = some st' → storeInv st') := by
  refine ⟨?_, storeInv_saveTask, c5_translateSinglePage, ?_⟩
  · intro env total s now now2 p hp
    simp only [createTaskPages] at hp
    rw [List.mem_map] at hp
    obtain ⟨n, hn, rfl⟩ := hp
    split
    · exact ⟨fun h => (nomatch h), fun h => (nomatch h)⟩
    · exact ⟨fun _ => rfl, fun h => (nomatch h)⟩
  · intro env store task pages now st' horacle hs ht h
    unfold translateTaskPages at h
    split at h
    · cases h
      exact hs
    · exact c5_pool_aux env now horacle pages store task hs ht st' h

/-- C5 witness example: a fresh pending page. -/
def pageW5 : PageResult :=
  { id := "w5", pageNumber := 1, imagePath := "/s/w5.png", imageURL := "/u/w5.png",
    textPath := "/s/w5.txt", textURL := "", hasText := false, sourceText := "",
    translation := "", status := .pending, error := "", updatedAt := "T0" }

/-- C5 witness example: a translator that succeeds with text. -/
def envW5 : TransEnv :=
  { oracle := fun _ => TransOutcome.ok ⟨true, " src ", " out "⟩,
    writeErr := none, textURLOf := fun _ => "/u/p1.txt" }

/-- C5 witness: a successful retranslation at concrete inputs yields an
empty error on the updated page. -/
theorem c5_status_error_invariant_witness :
    (translateSinglePage envW5 (fun _ => none) blankTask pageW5 true "T3").2.2.error = "" := by
  have h := (c5_status_error_invariant.2.2.1 envW5 (fun _ => none) blankTask pageW5 true "T3"
    (fun n e he => by exact (nomatch he))
    (fun id t hload => by exact (nomatch hload))
    (fun p hp => by exact (nomatch hp))).2.2
  exact h.1 (by decide)

/-! ## C10 -/


/-- One rune step of the splitter moves exactly that rune from the input
to the accumulated output (chunks plus current builder). -/
lemma splitStep_flatten (mb : Int) (st : List (List Char) × List Char × Int) (r : Char) :
    (splitStep mb st r).1.flatten ++ (splitStep mb st r).2.1
      = st.1.flatten ++ st.2.1 ++ [r] := by
  obtain ⟨chunks, builder, current⟩ := st
  unfold splitStep
  dsimp only
  split_ifs <;> simp [List.flatten_append, List.append_assoc]

/-- The rune loop of splitTextChunks is lossless: flattened chunks plus
the final builder equal the starting state plus all consumed runes. -/
lemma splitStep_fold_flatten (mb : Int) (cs : List Char) :
    ∀ st : List (List Char) × List Char × Int,
      ((cs.foldl (splitStep mb) st).1.flatten ++ (cs.foldl (splitStep mb) st).2.1)
        = st.1.flatten ++ st.2.1 ++ cs := by
  induction cs with
  | nil => intro st; simp
  | cons r cs ih =>
      intro st
      rw [List.foldl_cons, ih (splitStep mb st r), splitStep_flatten]
      simp [List.append_assoc]

/-- Every chunk a splitter step appends is non-empty: the size-flush is
guarded by a non-empty builder and the newline-flush appends a builder
that just received a rune. -/
lemma splitStep_ne_nil (mb : Int) (st : List (List Char) × List Char × Int) (r : Char)
    (h : ∀ c ∈ st.1, c ≠ ([] : List Char)) :
    ∀ c ∈ (splitStep mb st r).1, c ≠ [] := by
  obtain ⟨chunks, builder, current⟩ := st
  unfold splitStep
  dsimp only
  split_ifs with h1 h2 h3
  · intro c hc
    rcases List.mem_append.mp hc with hc1 | hc2
    · rcases List.mem_append.mp hc1 with hc3 | hc4
      · exact h c hc3
      · rcases List.mem_singleton.mp hc4 with rfl
        exact h1.2
    · rcases List.mem_singleton.mp hc2 with rfl
      simp
  · intro c hc
    rcases List.mem_append.mp hc with hc1 | hc2
    · exact h c hc1
    · rcases List.mem_singleton.mp hc2 with rfl
      exact h1.2
  · intro c hc
    rcases List.mem_append.mp hc with hc1 | hc2
    · exact h c hc1
    · rcases List.mem_singleton.mp hc2 with rfl
      simp
  · exact h

/-- The rune loop never emits an empty chunk. -/
lemma splitStep_fold_ne_nil (mb : Int) (cs : List Char) :
    ∀ st : List (List Char) × List Char × Int,
      (∀ c ∈ st.1, c ≠ ([] : List Char)) →
      ∀ c ∈ (cs.foldl (splitStep mb) st).1, c ≠ [] := by
  induction cs with
  | nil => intro st h; exact h
  | cons r cs ih =>
      intro st h
      rw [List.foldl_cons]
      exact ih (splitStep mb st r) (splitStep_ne_nil mb st r h)

/-- Folding string append over rune-list chunks concatenates them. -/
lemma string_foldl_append_mk : ∀ (l : List (List Char)) (s : List Char),
    List.foldl (fun r t => r ++ t) (String.mk s) (l.map String.mk) = String.mk (s ++ l.flatten)
  | [], s => by simp
  | a :: l, s => by
      rw [List.map_cons, List.foldl_cons]
      have h1 : String.mk s ++ String.mk a = String.mk (s ++ a) := rfl
      rw [h1, string_foldl_append_mk l (s ++ a)]
      simp [List.append_assoc]

/-- String.join of chunks built from rune lists is the flattened list. -/
lemma string_join_map_mk (l : List (List Char)) :
    String.join (l.map String.mk) = String.mk l.flatten := by
  have h := string_foldl_append_mk l []
  simp only [List.nil_append] at h
  exact h

/-- C10: for every input text and positive byte budget, splitTextChunks is
lossless and bounded below: concatenating the returned chunks in order
with no separator yields exactly the input, every returned chunk is
non-empty, and the result is empty exactly when the input is empty. -/
theorem c10_split_chunks (text : String) (maxBytes : Int) (_hpos : 0 < maxBytes) :
    (String.join (splitTextChunks text maxBytes) = text)
    ∧ (∀ c ∈ splitTextChunks text maxBytes, c ≠ "")
    ∧ (splitTextChunks text maxBytes = [] ↔ text = "") := by
  unfold splitTextChunks
  dsimp only
  generalize (if maxBytes ≤ 0 then ((formatterChunkSize : Nat) : Int) else maxBytes) = M
  have hfold := splitStep_fold_flatten M text.data ([], [], 0)
  have hne := splitStep_fold_ne_nil M text.data ([], [], 0) (by intro c hc; cases hc)
  generalize hst : text.data.foldl (splitStep M) ([], [], 0) = st at hfold hne
  obtain ⟨chunks, builder, current⟩ := st
  simp only [List.flatten_nil, List.nil_append] at hfold
  dsimp only at hfold hne ⊢
  have hjoin : (if builder ≠ [] then chunks ++ [builder] else chunks).flatten = text.data := by
    split
    · rw [List.flatten_append]
      simpa using hfold
    · rename_i hb
      rw [not_not] at hb
      rw [← hfold, hb, List.append_nil]
  have hnef : ∀ c ∈ (if builder ≠ [] then chunks ++ [builder] else chunks), c ≠ ([] : List Char) := by
    split
    · rename_i hb
      intro c hc
      rcases List.mem_append.mp hc with hc1 | hc2
      · exact hne c hc1
      · rcases List.mem_singleton.mp hc2 with rfl
        exact hb
    · exact hne
  refine ⟨?_, ?_, ?_⟩
  · rw [string_join_map_mk, hjoin]
  · intro c hc
    rw [List.mem_map] at hc
    obtain ⟨d, hd, rfl⟩ := hc
    intro hcontra
    exact hnef d hd (congrArg String.data hcontra)
  · constructor
    · intro hnil
      have h0 : (if builder ≠ [] then chunks ++ [builder] else chunks) = [] :=
        List.map_eq_nil_iff.mp hnil
      have h1 : text.data = [] := by
        rw [← hjoin, h0]
        rfl
      exact congrArg String.mk h1
    · intro h
      subst h
      have h2 : ((chunks, builder, current) : List (List Char) × List Char × Int) = ([], [], 0) := by
        rw [← hst]
        rfl
      simp only [Prod.mk.injEq] at h2
      obtain ⟨rfl, rfl, rfl⟩ := h2
      simp

/-- C10 witness: losslessness applied at a concrete text and budget, and a
concrete evaluation of the splitter. -/
theorem c10_split_chunks_witness :
    0 < (3 : Int)
    ∧ String.join (splitTextChunks ("ab\ncd" : String) 3) = "ab\ncd"
    ∧ splitTextChunks ("hello" : String) 2 = ["he", "ll", "o"] :=
  ⟨by decide, (c10_split_chunks ("ab\ncd") 3 (by decide)).1, by decide⟩

end PdfTool
